import Mathlib

/-!
Verification of the Nmap-CIDR-Scanner wrapper (`scanner.py`).

The script's own logic is string validation, filename generation, command
construction and a progress counter driven by substring matching, so the
embedding below models:

* the Python string primitives the script uses (`str.strip`, `str.lower`,
  single-character `str.replace`, `in` substring tests, `str.split` on a
  single separator character), acting on `List Char`;
* CPython's `ipaddress.IPv4Network(...)` string parser (the stdlib routine
  `validate_cidr` delegates to), including its strict host-bits check;
* the script's functions `validate_cidr`, `get_user_input`,
  `generate_unique_filename`, `scan_network`'s format substitution /
  flag lookup / command construction / overwrite warning / progress loop,
  and `main`'s help short-circuit, with user input modelled as a list of
  input strings and the file system as a partial map.

Definitions whose doc comment starts with "Modelled from the spec:" embed
behavior that lives outside this repository's source (the external `nmap`
process's output writing, and the specification's Target Enumerator).
-/

namespace Scanner

/-! ## Python string primitives -/

/-- The ASCII whitespace characters recognized by Python's `str.strip()`. -/
def isPySpace (c : Char) : Bool :=
  c = ' ' || c = '\t' || c = '\n' || c = '\r' || c = '\x0b' || c = '\x0c'

/-- Python `str.strip()`: drop leading and trailing whitespace. -/
def pyStrip (s : String) : String :=
  ⟨((s.data.dropWhile isPySpace).reverse.dropWhile isPySpace).reverse⟩

/-- Python `str.lower()` restricted to ASCII letters (the only letters the
script's prompts involve). -/
def pyLower (s : String) : String :=
  ⟨s.data.map Char.toLower⟩

/-- Python `str.replace(old, new)` for a single-character pattern: every
occurrence of `old` becomes `new`. -/
def pyReplaceChar (l : List Char) (old new : Char) : List Char :=
  l.map (fun c => if c = old then new else c)

/-- Python `str.split(sep)` for a one-character separator: splitting the
empty string gives `[""]`, and adjacent separators give empty fields. -/
def splitOnChar (l : List Char) (sep : Char) : List (List Char) :=
  match l with
  | [] => [[]]
  | c :: rest =>
    let r := splitOnChar rest sep
    if c = sep then [] :: r
    else
      match r with
      | [] => [[c]]
      | h :: t => (c :: h) :: t

/-- Whether `needle` occurs at the start of `hay`. -/
def listStartsWith (hay needle : List Char) : Bool :=
  match needle, hay with
  | [], _ => true
  | _ :: _, [] => false
  | n :: ns, h :: hs => n = h && listStartsWith hs ns

/-- Python's `needle in hay` substring test. -/
def pyContainsSub (hay needle : List Char) : Bool :=
  match hay with
  | [] => needle.isEmpty
  | _ :: rest => listStartsWith hay needle || pyContainsSub rest needle

/-! ## CPython `ipaddress` model

`validate_cidr` calls `ipaddress.IPv4Network(cidr)` and reports whether it
raised `ValueError`.  The definitions below translate the CPython stdlib
routines that decide this (`_parse_octet`, `_ip_int_from_string`,
`_prefix_from_prefix_string`, `_prefix_from_ip_int`, `_prefix_from_ip_string`,
`_make_netmask`, `_split_addr_prefix`, `_ip_int_from_prefix`, and the
strict-mode host-bits check in `_BaseNetwork.__init__`). -/

/-- Decimal value of a list of ASCII digits (Python `int(s, 10)` on a digit
string). -/
def digitsToNat (l : List Char) : Nat :=
  l.foldl (fun a c => 10 * a + (c.toNat - 48)) 0

/-- CPython `IPv4Address._parse_octet`: nonempty, ASCII digits only, at most
3 characters, no leading zero (except "0" itself), value at most 255. -/
def parse_octet (octet : List Char) : Option Nat :=
  if octet = [] then none
  else if ¬ octet.all Char.isDigit then none
  else if octet.length > 3 then none
  else if octet ≠ ['0'] ∧ octet.head? = some '0' then none
  else
    let n := digitsToNat octet
    if n > 255 then none else some n

/-- CPython `IPv4Address._ip_int_from_string`: exactly four octets separated
by dots, combined big-endian. -/
def ip_int_from_string (l : List Char) : Option Nat :=
  match splitOnChar l '.' with
  | [a, b, c, d] =>
    match parse_octet a, parse_octet b, parse_octet c, parse_octet d with
    | some x, some y, some z, some w => some (((x * 256 + y) * 256 + z) * 256 + w)
    | _, _, _, _ => none
  | _ => none

/-- CPython `IPv4Network._ip_int_from_prefix`:
`ALL_ONES ^ (ALL_ONES >> prefixlen)` with `ALL_ONES = 2^32 - 1`. -/
def netmaskInt (p : Nat) : Nat :=
  (2 ^ 32 - 1) ^^^ ((2 ^ 32 - 1) >>> p)

/-- CPython `_prefix_from_prefix_string`: ASCII digits only (so no sign and
no whitespace), value at most 32. -/
def prefix_from_prefix_string (l : List Char) : Option Nat :=
  if l ≠ [] ∧ l.all Char.isDigit then
    let n := digitsToNat l
    if n ≤ 32 then some n else none
  else none

/-- CPython `_prefix_from_ip_int`: recover the prefix length from an integer
that must have the form of a netmask (ones followed by zeros). -/
def prefix_from_ip_int (n : Nat) : Option Nat :=
  (List.range 33).find? (fun p => n == netmaskInt p)

/-- CPython `_prefix_from_ip_string`: parse a dotted-quad netmask, or failing
that a dotted-quad hostmask (the bitwise complement of a netmask). -/
def prefix_from_ip_string (l : List Char) : Option Nat :=
  match ip_int_from_string l with
  | none => none
  | some n =>
    match prefix_from_ip_int n with
    | some p => some p
    | none => prefix_from_ip_int (n ^^^ (2 ^ 32 - 1))

/-- CPython `IPv4Network._make_netmask` on a string argument: prefix-length
form first, then dotted-quad netmask/hostmask form. -/
def make_netmask (l : List Char) : Option Nat :=
  match prefix_from_prefix_string l with
  | some p => some p
  | none => prefix_from_ip_string l

/-- CPython `_split_addr_prefix` followed by address and netmask parsing:
split on `/` (at most one permitted; a missing prefix means `/32`), parse the
address part to an integer and the prefix part to a prefix length. -/
def ipv4NetworkParse (s : String) : Option (Nat × Nat) :=
  match splitOnChar s.data '/' with
  | [a] => (ip_int_from_string a).map (fun ip => (ip, 32))
  | [a, m] =>
    match ip_int_from_string a, make_netmask m with
    | some ip, some p => some (ip, p)
    | _, _ => none
  | _ => none

/-- `scanner.py` `validate_cidr`: `True` when `ipaddress.IPv4Network(cidr)`
succeeds.  `IPv4Network` is strict by default: after parsing it raises
`ValueError` unless `packed & int(netmask) == packed`. -/
def validate_cidr (s : String) : Bool :=
  match ipv4NetworkParse s with
  | none => false
  | some (ip, p) => ip &&& netmaskInt p == ip

/-! ## The script's input loop, filename generation and scan invocation -/

/-- `scanner.py` `get_user_input`, with the stream of interactive answers
modelled as a list of strings: keep prompting until a stripped input passes
`validate_cidr`; return that input together with the unconsumed answers, or
`none` when the answers run out (the Python loop would keep blocking on
`input()`). -/
def get_user_input : List String → Option (String × List String)
  | [] => none
  | i :: rest =>
    let cidr_input := pyStrip i
    if validate_cidr cidr_input then some (cidr_input, rest)
    else get_user_input rest

/-- `c` is the strip of the first element of `inputs` whose strip passes
`validate_cidr`, and `rest` is everything after that element. -/
def FirstValid (inputs : List String) (c : String) (rest : List String) : Prop :=
  ∃ pre inp, inputs = pre ++ inp :: rest ∧
    (∀ x ∈ pre, validate_cidr (pyStrip x) = false) ∧
    c = pyStrip inp ∧ validate_cidr (pyStrip inp) = true

/-- The recognized output formats (`valid_formats` in `scan_network`). -/
def valid_formats : List String := ["xml", "json", "grepable", "normal"]

/-- `scan_network`'s format substitution: an unrecognized `output_format`
becomes `"xml"`. -/
def substituteFormat (output_format : String) : String :=
  if output_format ∈ valid_formats then output_format else "xml"

/-- The warning `scan_network` prints during format substitution: one message
for an unrecognized format, nothing otherwise. -/
def formatWarningMsgs (output_format : String) : List String :=
  if output_format ∈ valid_formats then []
  else ["Invalid output format specified. Using default 'xml'."]

/-- `scan_network`'s `output_flags` dict, as a partial lookup. -/
def output_flags (fmt : String) : Option String :=
  if fmt = "xml" then some "-oX"
  else if fmt = "json" then some "-oJ"
  else if fmt = "grepable" then some "-oG"
  else if fmt = "normal" then some "-oN"
  else none

/-- `scanner.py` `generate_unique_filename`.  The Python function reads
`datetime.now()` internally; here the formatted timestamp is passed as an
argument. -/
def generate_unique_filename (output_format target_cidr timestamp : String) :
    String :=
  "nmap_scan_" ++ ⟨pyReplaceChar (pyReplaceChar target_cidr.data '/' '_') '.' '_'⟩
    ++ "_" ++ timestamp ++ "." ++ output_format

/-- CPython `datetime.strftime("%Y%m%d_%H%M%S")` for an in-range datetime:
the year zero-padded to four digits, every other field zero-padded to two,
with `_` between the date and the time. -/
def strftimeTimestamp (y mo d h mi s : Nat) : String :=
  ⟨[Nat.digitChar (y / 1000 % 10), Nat.digitChar (y / 100 % 10),
    Nat.digitChar (y / 10 % 10), Nat.digitChar (y % 10),
    Nat.digitChar (mo / 10 % 10), Nat.digitChar (mo % 10),
    Nat.digitChar (d / 10 % 10), Nat.digitChar (d % 10), '_',
    Nat.digitChar (h / 10 % 10), Nat.digitChar (h % 10),
    Nat.digitChar (mi / 10 % 10), Nat.digitChar (mi % 10),
    Nat.digitChar (s / 10 % 10), Nat.digitChar (s % 10)]⟩

/-- The command f-string `scan_network` hands to `subprocess.Popen`, after
format substitution, flag lookup and filename generation; `none` would mean
a failed dict lookup (which C10 rules out). -/
def scanCommand (target options output_format timestamp : String) :
    Option String :=
  let fmt := substituteFormat output_format
  match output_flags fmt with
  | some output_flag =>
    some ("nmap " ++ output_flag ++ " " ++
      generate_unique_filename fmt target timestamp ++ " " ++ options ++ " " ++ target)
  | none => none

/-- The overwrite warning `scan_network` prints when the output file already
exists. -/
def overwriteMsg (filename : String) : String :=
  "Output file " ++ filename ++ " already exists, overwriting."

/-- Modelled from the spec: the external `nmap` process, invoked with an
output flag, replaces the contents of the named output file ("pre-existing
files are overwritten with a warning, never silently merged").  The file
system is a partial map from names to contents. -/
def nmapWriteOutput (fs : String → Option String) (filename content : String) :
    String → Option String :=
  fun name => if name = filename then some content else fs name

/-- The file-related observable behavior of `scan_network`: the warnings it
prints about the output file (the `os.path.exists` check) and the file system
after the external scanner has written its report. -/
def scanFileEffects (fs : String → Option String)
    (target output_format timestamp content : String) :
    List String × (String → Option String) :=
  let fmt := substituteFormat output_format
  let output_filename := generate_unique_filename fmt target timestamp
  ((if (fs output_filename).isSome then [overwriteMsg output_filename] else []),
    nmapWriteOutput fs output_filename content)

/-! ## The progress loop -/

/-- The substring `scan_network`'s output loop looks for. -/
def portsScannedLit : List Char := "Ports scanned".data

/-- Whether a streamed line triggers a progress update
(`"Ports scanned" in line`). -/
def matchesPorts (line : String) : Bool :=
  pyContainsSub line.data portsScannedLit

/-- One iteration of `scan_network`'s line loop: `pbar.update(10)` on a
matching line, otherwise the count is untouched. -/
def progressStep (count : Nat) (line : String) : Nat :=
  if matchesPorts line then count + 10 else count

/-- The successive values of the progress count, starting from `count`,
while the given lines stream in. -/
def progressFrom (count : Nat) : List String → List Nat
  | [] => [count]
  | line :: rest => count :: progressFrom (progressStep count line) rest

/-- The progress count's trajectory over a whole stream, from 0. -/
def progressTrace (lines : List String) : List Nat :=
  progressFrom 0 lines

/-- The progress count when the stream ends (the scan completes). -/
def progressFinal (lines : List String) : Nat :=
  lines.foldl progressStep 0

/-! ## `main` -/

/-- What one run of `main` amounts to: either the help text was shown and
`main` returned, or `scan_network` was invoked with a target, options and an
output format. -/
inductive MainResult where
  | helpShown : MainResult
  | scanInvoked (target options output_format : String) : MainResult
deriving DecidableEq

/-- The options string hard-coded in `main`. -/
def default_options : String := "-sS -sV -O -A -p 1-1000"

/-- The scan path of `main` after the help prompt was declined: obtain a
valid CIDR, read the output format (stripped and lowercased), and invoke
`scan_network`.  `none` means the modelled input list ran out. -/
def scanFlow (inputs : List String) : Option MainResult :=
  match get_user_input inputs with
  | none => none
  | some (target_cidr, rest) =>
    match rest with
    | [] => none
    | fmtIn :: _ =>
      some (MainResult.scanInvoked target_cidr default_options
        (pyLower (pyStrip fmtIn)))

/-- `scanner.py` `main` over a modelled list of interactive answers: the
first answer is the help prompt; `"yes"` (stripped, lowercased) short-circuits
to the help text, anything else proceeds to the scan flow. -/
def main (inputs : List String) : Option MainResult :=
  match inputs with
  | [] => none
  | helpAns :: rest =>
    if pyLower (pyStrip helpAns) = "yes" then some MainResult.helpShown
    else scanFlow rest

/-! ## Target enumeration (spec-level) -/

/-- The integer form of a dotted quad. -/
def ipNum (a b c d : Nat) : Nat :=
  ((a * 256 + b) * 256 + c) * 256 + d

/-- Modelled from the spec: the Target Enumerator, which the repository's
source does not implement (it delegates all scanning to `nmap`).  Given the
network address and prefix length of a CIDR range, it yields the host
addresses in ascending order, excluding the network and broadcast addresses
when the prefix length is below 31 and including every address otherwise. -/
def enumerateHosts (network p : Nat) : List Nat :=
  if p < 31 then
    (List.range (2 ^ (32 - p) - 2)).map (fun i => network + 1 + i)
  else
    (List.range (2 ^ (32 - p))).map (fun i => network + i)

/-! ## Supporting lemmas -/

theorem parse_octet_le {l : List Char} {n : Nat} (h : parse_octet l = some n) :
    n ≤ 255 := by
  unfold parse_octet at h
  repeat split at h
  all_goals simp_all
  omega

theorem ip_int_from_string_lt {l : List Char} {n : Nat}
    (h : ip_int_from_string l = some n) : n < 2 ^ 32 := by
  unfold ip_int_from_string at h
  split at h
  · split at h
    · rename_i x y z w hx hy hz hw
      cases h
      have h1 := parse_octet_le hx
      have h2 := parse_octet_le hy
      have h3 := parse_octet_le hz
      have h4 := parse_octet_le hw
      omega
    · exact absurd h (by simp)
  · exact absurd h (by simp)

theorem prefix_from_prefix_string_le {l : List Char} {p : Nat}
    (h : prefix_from_prefix_string l = some p) : p ≤ 32 := by
  unfold prefix_from_prefix_string at h
  repeat split at h
  all_goals simp_all
  omega

theorem prefix_from_ip_int_le {n p : Nat} (h : prefix_from_ip_int n = some p) :
    p ≤ 32 := by
  have hmem := List.mem_of_find?_eq_some h
  have := List.mem_range.mp hmem
  omega

theorem make_netmask_le {l : List Char} {p : Nat} (h : make_netmask l = some p) :
    p ≤ 32 := by
  unfold make_netmask at h
  split at h
  · rename_i q hq
    cases h
    exact prefix_from_prefix_string_le hq
  · unfold prefix_from_ip_string at h
    split at h
    · exact absurd h (by simp)
    · split at h
      · rename_i hfind
        cases h
        exact prefix_from_ip_int_le hfind
      · exact prefix_from_ip_int_le h

theorem ipv4NetworkParse_bounds {s : String} {ip p : Nat}
    (h : ipv4NetworkParse s = some (ip, p)) : ip < 2 ^ 32 ∧ p ≤ 32 := by
  unfold ipv4NetworkParse at h
  split at h
  · rename_i a
    obtain ⟨n, hn, heq⟩ := Option.map_eq_some'.mp h
    cases heq
    exact ⟨ip_int_from_string_lt hn, by omega⟩
  · split at h
    · rename_i hip hp
      cases h
      exact ⟨ip_int_from_string_lt hip, make_netmask_le hp⟩
    · exact absurd h (by simp)
  · exact absurd h (by simp)

theorem testBit_netmaskInt {p : Nat} (hp : p ≤ 32) (i : Nat) :
    (netmaskInt p).testBit i = decide (32 - p ≤ i ∧ i < 32) := by
  unfold netmaskInt
  rw [Nat.testBit_xor, Nat.testBit_shiftRight, Nat.testBit_two_pow_sub_one,
    Nat.testBit_two_pow_sub_one]
  by_cases h1 : i < 32 <;> by_cases h2 : p + i < 32 <;> simp [h1, h2] <;> omega

theorem land_netmask_iff {ip p : Nat} (h32 : ip < 2 ^ 32) (hp : p ≤ 32) :
    ip &&& netmaskInt p = ip ↔ ip % 2 ^ (32 - p) = 0 := by
  have hhigh : ∀ i, 32 ≤ i → ip.testBit i = false := by
    intro i hi
    exact Nat.testBit_lt_two_pow (lt_of_lt_of_le h32 (Nat.pow_le_pow_right (by omega) hi))
  constructor
  · intro h
    have hlow : ∀ i, i < 32 - p → ip.testBit i = false := by
      intro i hi
      have hb := congrArg (fun x => Nat.testBit x i) h
      simp only [Nat.testBit_land, testBit_netmaskInt hp] at hb
      have hd : decide (32 - p ≤ i ∧ i < 32) = false := by
        simp; omega
      rw [hd, Bool.and_false] at hb
      exact hb.symm
    apply Nat.zero_of_testBit_eq_false
    intro i
    rw [Nat.testBit_mod_two_pow]
    by_cases hi : i < 32 - p
    · rw [hlow i hi, Bool.and_false]
    · simp [hi]
  · intro h
    apply Nat.eq_of_testBit_eq
    intro i
    rw [Nat.testBit_land, testBit_netmaskInt hp]
    cases htest : ip.testBit i with
    | false => simp
    | true =>
      have h1 : 32 - p ≤ i := by
        by_contra hc
        push_neg at hc
        have := Nat.testBit_mod_two_pow ip (32 - p) i
        rw [h, Nat.zero_testBit] at this
        simp [hc] at this
        rw [this] at htest
        exact Bool.false_ne_true htest
      have h2 : i < 32 := by
        by_contra hc
        push_neg at hc
        rw [hhigh i hc] at htest
        exact Bool.false_ne_true htest
      simp [h1, h2]

/-! ## Claim theorems -/

/-- C1: for every output-format string outside
`["xml", "json", "grepable", "normal"]`, `scan_network` prints the invalid
format warning and substitutes `"xml"` as the format actually used; each of
the four recognized formats passes through unchanged with no warning. -/
theorem format_substitution_spec (f : String) :
    (f ∉ valid_formats → substituteFormat f = "xml" ∧
      formatWarningMsgs f = ["Invalid output format specified. Using default 'xml'."]) ∧
    (f ∈ valid_formats → substituteFormat f = f ∧ formatWarningMsgs f = []) := by
  constructor <;> intro h <;> simp [substituteFormat, formatWarningMsgs, h]

/-- Witness for C1 at the unrecognized format `"yaml"` and the recognized
format `"json"`. -/
theorem format_substitution_witness :
    (substituteFormat "yaml" = "xml" ∧
      formatWarningMsgs "yaml" = ["Invalid output format specified. Using default 'xml'."]) ∧
    (substituteFormat "json" = "json" ∧ formatWarningMsgs "json" = []) :=
  ⟨(format_substitution_spec "yaml").1 (by decide),
   (format_substitution_spec "json").2 (by decide)⟩

/-- C2 (counterexample): `"192.168.1.1/24"` is a well-formed dotted quad
followed by `/` and a prefix length within 0–32, yet `validate_cidr` rejects
it, because `IPv4Network` is strict and the address has host bits set. -/
theorem validate_cidr_counterexample :
    validate_cidr "192.168.1.1/24" = false ∧
    ip_int_from_string ("192.168.1.1".data) = some (ipNum 192 168 1 1) ∧
    prefix_from_prefix_string ("24".data) = some 24 := by
  decide

/-- C2 (amended): `validate_cidr` returns `True` exactly when the string
parses as an IPv4 network (well-formed dotted quad, at most one `/`, prefix
given as decimal 0–32 or as a dotted-quad netmask/hostmask) whose host bits
below the prefix are all zero. -/
theorem validate_cidr_iff (s : String) :
    validate_cidr s = true ↔
      ∃ ip p, ipv4NetworkParse s = some (ip, p) ∧ ip % 2 ^ (32 - p) = 0 := by
  constructor
  · intro h
    unfold validate_cidr at h
    split at h
    · exact absurd h (by simp)
    · rename_i ip p heq
      obtain ⟨h32, hp⟩ := ipv4NetworkParse_bounds heq
      exact ⟨ip, p, heq, (land_netmask_iff h32 hp).mp (by simpa using h)⟩
  · rintro ⟨ip, p, heq, hmod⟩
    obtain ⟨h32, hp⟩ := ipv4NetworkParse_bounds heq
    unfold validate_cidr
    rw [heq]
    simpa using (land_netmask_iff h32 hp).mpr hmod

/-- C10: after `scan_network`'s format substitution, the format is always a
key of the `output_flags` dict, so the lookup succeeds and yields one of the
four nmap output flags, with the post-substitution format one of the four
recognized names. -/
theorem output_flags_total (f : String) :
    ∃ flag, output_flags (substituteFormat f) = some flag ∧
      flag ∈ ["-oX", "-oJ", "-oG", "-oN"] ∧
      substituteFormat f ∈ valid_formats := by
  by_cases h : f ∈ valid_formats
  · have hs : substituteFormat f = f := by simp [substituteFormat, h]
    rw [hs]
    fin_cases h
    · exact ⟨"-oX", by decide, by decide, by decide⟩
    · exact ⟨"-oJ", by decide, by decide, by decide⟩
    · exact ⟨"-oG", by decide, by decide, by decide⟩
    · exact ⟨"-oN", by decide, by decide, by decide⟩
  · have hs : substituteFormat f = "xml" := by simp [substituteFormat, h]
    rw [hs]
    exact ⟨"-oX", by decide, by decide, by decide⟩

theorem digitChar_isDigit {n : Nat} (h : n < 10) :
    (Nat.digitChar n).isDigit = true := by
  interval_cases n <;> decide

theorem replace_slash_dot (l : List Char) :
    pyReplaceChar (pyReplaceChar l '/' '_') '.' '_' =
      l.map (fun c => if c = '/' then '_' else if c = '.' then '_' else c) := by
  unfold pyReplaceChar
  rw [List.map_map]
  congr 1
  funext c
  by_cases h1 : c = '/' <;> by_cases h2 : c = '.' <;>
    simp [Function.comp, h1, h2]

/-- C3: `generate_unique_filename` returns exactly
`"nmap_scan_" ++ (the CIDR with every "/" and "." replaced by "_") ++ "_" ++
timestamp ++ "." ++ format`; the `strftime("%Y%m%d_%H%M%S")` timestamp is 15
characters, digits everywhere except the `_` at index 8, so the extension
after the final `.` is the chosen format. -/
theorem generate_unique_filename_spec (fmt cidr : String) (y mo d h mi s : Nat) :
    generate_unique_filename fmt cidr (strftimeTimestamp y mo d h mi s) =
      "nmap_scan_" ++
        (⟨cidr.data.map (fun c => if c = '/' then '_' else if c = '.' then '_' else c)⟩ : String)
        ++ "_" ++ strftimeTimestamp y mo d h mi s ++ "." ++ fmt ∧
    (strftimeTimestamp y mo d h mi s).length = 15 ∧
    (strftimeTimestamp y mo d h mi s).data.get? 8 = some '_' ∧
    (strftimeTimestamp y mo d h mi s).data.map Char.isDigit =
      [true, true, true, true, true, true, true, true, false,
       true, true, true, true, true, true] := by
  have hd : ∀ n : Nat, (Nat.digitChar (n % 10)).isDigit = true :=
    fun n => digitChar_isDigit (Nat.mod_lt n (by omega))
  refine ⟨?_, ?_, ?_, ?_⟩
  · unfold generate_unique_filename
    rw [replace_slash_dot]
  · rfl
  · rfl
  · simp [strftimeTimestamp, hd]

/-- C4: whenever the modelled `get_user_input` returns, the returned string
passes `validate_cidr`, it is the stripped form of the first input whose
strip validates, every earlier input was rejected (and reprompted), and the
remaining inputs are untouched. -/
theorem get_user_input_valid (inputs : List String) (c : String)
    (rest : List String) (h : get_user_input inputs = some (c, rest)) :
    validate_cidr c = true ∧ FirstValid inputs c rest := by
  induction inputs generalizing c rest with
  | nil => simp [get_user_input] at h
  | cons i tl ih =>
    unfold get_user_input at h
    by_cases hv : validate_cidr (pyStrip i) = true
    · simp only [hv, if_true] at h
      cases h
      exact ⟨hv, [], i, rfl, by simp, rfl, hv⟩
    · simp only [hv] at h
      rw [if_neg (by simp [hv])] at h
      obtain ⟨h1, pre, inp, heq, hpre, hc, hvin⟩ := ih c rest h
      refine ⟨h1, i :: pre, inp, by rw [heq]; rfl, ?_, hc, hvin⟩
      intro x hx
      rcases List.mem_cons.mp hx with hx | hx
      · rw [hx]
        simpa using hv
      · exact hpre x hx

/-- Witness for C4: a rejected input followed by a padded valid CIDR. -/
theorem get_user_input_witness :
    validate_cidr "10.0.0.0/24" = true ∧
    FirstValid ["not-a-cidr", " 10.0.0.0/24 "] "10.0.0.0/24" [] :=
  get_user_input_valid ["not-a-cidr", " 10.0.0.0/24 "] "10.0.0.0/24" []
    (by decide)

theorem progress_foldl (c : Nat) (lines : List String) :
    lines.foldl progressStep c = c + 10 * lines.countP matchesPorts := by
  induction lines generalizing c with
  | nil => simp
  | cons l tl ih =>
    rw [List.foldl_cons, ih, List.countP_cons]
    unfold progressStep
    by_cases h : matchesPorts l = true
    · simp [h]
      ring
    · simp [h]

theorem progressFrom_headq (c : Nat) (lines : List String) :
    (progressFrom c lines).head? = some c := by
  cases lines <;> rfl

theorem progress_chain (c : Nat) (lines : List String) :
    List.Chain' (· ≤ ·) (progressFrom c lines) := by
  induction lines generalizing c with
  | nil => simp [progressFrom]
  | cons l tl ih =>
    rw [progressFrom, List.chain'_cons']
    refine ⟨?_, ih (progressStep c l)⟩
    intro y hy
    rw [progressFrom_headq] at hy
    cases hy
    unfold progressStep
    by_cases h : matchesPorts l = true <;> simp [h]

/-- C5 (amended): the progress count is monotonically non-decreasing along
the stream — each line adds exactly 10 when it contains `"Ports scanned"` and
leaves the count unchanged otherwise — and the final count is 10 times the
number of matching lines, which need not equal the configured total of
1000. -/
theorem progress_monotone_spec (lines : List String) :
    List.Chain' (· ≤ ·) (progressTrace lines) ∧
    (∀ c line, progressStep c line =
      if matchesPorts line then c + 10 else c) ∧
    progressFinal lines = 10 * lines.countP matchesPorts := by
  refine ⟨progress_chain 0 lines, fun c line => rfl, ?_⟩
  unfold progressFinal
  rw [progress_foldl]
  omega

/-- C5 (counterexample): a completed scan whose output stream contains no
`"Ports scanned"` line finishes with the count at 0, not at the configured
total of 1000. -/
theorem progress_total_counterexample :
    progressFinal ["Starting Nmap ( https://nmap.org )",
      "Nmap done: 1 IP address scanned"] = 0 ∧
    progressFinal ["Starting Nmap ( https://nmap.org )",
      "Nmap done: 1 IP address scanned"] ≠ 1000 := by
  decide

/-- C6: when the help answer, stripped and lowercased, is `"yes"`, `main`
shows the help text and returns — no CIDR prompt, no command, no scan; for
any other answer it proceeds to the scan flow. -/
theorem main_help_spec (ans : String) (rest : List String) :
    (pyLower (pyStrip ans) = "yes" →
      main (ans :: rest) = some MainResult.helpShown ∧
      ∀ t o f, main (ans :: rest) ≠ some (MainResult.scanInvoked t o f)) ∧
    (pyLower (pyStrip ans) ≠ "yes" → main (ans :: rest) = scanFlow rest) := by
  constructor <;> intro h <;> simp [main, h]

/-- Witness for C6: an affirmative answer with surrounding whitespace and
mixed case short-circuits to help; a negative answer reaches the scan
invocation. -/
theorem main_help_witness :
    main [" YES ", "192.168.1.0/24", "xml"] = some MainResult.helpShown ∧
    main ["no", "192.168.1.0/24", "xml"] =
      some (MainResult.scanInvoked "192.168.1.0/24" default_options "xml") := by
  constructor
  · exact ((main_help_spec " YES " ["192.168.1.0/24", "xml"]).1 (by decide)).1
  · rw [(main_help_spec "no" ["192.168.1.0/24", "xml"]).2 (by decide)]
    decide

/-- C7: for each recognized output format, the command handed to the
subprocess is exactly `"nmap "` + the format's output flag (`-oX`, `-oJ`,
`-oG`, `-oN`) + the generated output filename + the options string + the
target, a pure function of those inputs. -/
theorem scanCommand_spec (t o ts fmt : String) (h : fmt ∈ valid_formats) :
    scanCommand t o fmt ts =
      some ("nmap " ++
        (if fmt = "xml" then "-oX" else if fmt = "json" then "-oJ"
         else if fmt = "grepable" then "-oG" else "-oN") ++ " " ++
        generate_unique_filename fmt t ts ++ " " ++ o ++ " " ++ t) := by
  fin_cases h <;> rfl

/-- Witness for C7 at the format `"json"` with concrete target, options and
timestamp. -/
theorem scanCommand_witness :
    scanCommand "192.168.1.0/24" "-sS -sV -O -A -p 1-1000" "json"
        "20260101_120000" =
      some ("nmap " ++ "-oJ" ++ " " ++
        generate_unique_filename "json" "192.168.1.0/24" "20260101_120000" ++
        " " ++ "-sS -sV -O -A -p 1-1000" ++ " " ++ "192.168.1.0/24") := by
  have h := scanCommand_spec "192.168.1.0/24" "-sS -sV -O -A -p 1-1000"
    "20260101_120000" "json" (by decide)
  simpa using h

/-- C8: `scan_network` prints the overwrite warning exactly when the
generated output filename already exists; whether or not it exists, the file
afterwards holds exactly the scanner's new report (overwritten, never merged
with the old contents), and no other file is touched. -/
theorem scan_overwrite_spec (fs : String → Option String)
    (t f ts content : String) :
    ((scanFileEffects fs t f ts content).1 ≠ [] ↔
      (fs (generate_unique_filename (substituteFormat f) t ts)).isSome = true) ∧
    ((scanFileEffects fs t f ts content).1 = [] ∨
      (scanFileEffects fs t f ts content).1 =
        [overwriteMsg (generate_unique_filename (substituteFormat f) t ts)]) ∧
    (scanFileEffects fs t f ts content).2
      (generate_unique_filename (substituteFormat f) t ts) = some content ∧
    ∀ name, name ≠ generate_unique_filename (substituteFormat f) t ts →
      (scanFileEffects fs t f ts content).2 name = fs name := by
  unfold scanFileEffects nmapWriteOutput
  refine ⟨?_, ?_, by simp, ?_⟩
  · cases h : (fs (generate_unique_filename (substituteFormat f) t ts)).isSome <;>
      simp [h]
  · cases h : (fs (generate_unique_filename (substituteFormat f) t ts)).isSome <;>
      simp [h]
  · intro name hn
    simp [hn]

/-- Witness for C8: on an empty file system there is no warning, the report
lands in the generated file, and an unrelated name stays absent. -/
theorem scan_overwrite_witness :
    (scanFileEffects (fun _ => none) "10.0.0.0/24" "xml" "20260101_120000"
      "report").2 "unrelated.txt" = none :=
  (scan_overwrite_spec (fun _ => none) "10.0.0.0/24" "xml" "20260101_120000"
    "report").2.2.2 "unrelated.txt" (by decide)

/-- C9: the spec-modelled Target Enumerator yields `2^(32-p) - 2` hosts for
prefixes below 31 and `2^(32-p)` hosts otherwise, in strictly ascending
order, with every host strictly between the network and broadcast addresses
when the prefix is below 31. -/
theorem enumerateHosts_spec (network p : Nat) :
    (p < 31 → (enumerateHosts network p).length = 2 ^ (32 - p) - 2) ∧
    (31 ≤ p → (enumerateHosts network p).length = 2 ^ (32 - p)) ∧
    (enumerateHosts network p).Pairwise (· < ·) ∧
    (p < 31 → ∀ x ∈ enumerateHosts network p,
      network < x ∧ x < network + (2 ^ (32 - p) - 1)) := by
  refine ⟨?_, ?_, ?_, ?_⟩
  · intro hp
    simp [enumerateHosts, hp]
  · intro hp
    simp [enumerateHosts, Nat.not_lt.mpr hp]
  · unfold enumerateHosts
    split <;>
      exact List.pairwise_map.mpr ((List.pairwise_lt_range _).imp (by omega))
  · intro hp x hx
    have hpow : 4 ≤ 2 ^ (32 - p) := by
      calc 4 = 2 ^ 2 := rfl
        _ ≤ 2 ^ (32 - p) := Nat.pow_le_pow_right (by omega) (by omega)
    rw [enumerateHosts, if_pos hp] at hx
    obtain ⟨i, hi, rfl⟩ := List.mem_map.mp hx
    have := List.mem_range.mp hi
    omega

/-- Witness for C9 at `192.168.1.0/30`: exactly the two hosts `192.168.1.1`
and `192.168.1.2`, with the network and broadcast addresses excluded. -/
theorem enumerateHosts_witness :
    (enumerateHosts (ipNum 192 168 1 0) 30).length = 2 ^ (32 - 30) - 2 ∧
    enumerateHosts (ipNum 192 168 1 0) 30 = [ipNum 192 168 1 1, ipNum 192 168 1 2] ∧
    ipNum 192 168 1 0 ∉ enumerateHosts (ipNum 192 168 1 0) 30 ∧
    ipNum 192 168 1 3 ∉ enumerateHosts (ipNum 192 168 1 0) 30 := by
  refine ⟨(enumerateHosts_spec (ipNum 192 168 1 0) 30).1 (by decide),
    by decide, by decide, by decide⟩

end Scanner
